import Mathlib

/-!
Shallow embedding of the marketplace settlement code of the
AI_Art_Gallery_and_Marketplace repository: the `purchase_artwork` and
`place_bid` views (src/backend/gallery/views.py), the `BidSerializer.validate`
and `ArtworkCreateSerializer.create` methods (src/backend/gallery/serializers.py),
and the relevant model fields (src/backend/gallery/models.py).

Money is modelled by ℚ: the source uses Python `Decimal` arithmetic, which is
exact on the values occurring inside a request (`price * Decimal('0.05')` is
exact). Timestamps are modelled by ℤ. User ids are ℕ. Only the fields the
marketplace logic reads or writes are carried (string titles/messages and
image fields are omitted; notifications keep their recipient and type).
-/

namespace Gallery

/-- Artwork.STATUS_CHOICES from models.py. -/
inductive ArtStatus
  | draft
  | published
  | sold
  | archived
deriving DecidableEq, Repr

/-- Marketplace-relevant fields of the Artwork model (models.py). -/
structure Artwork where
  owner : Nat
  price : ℚ
  is_for_sale : Bool
  is_auction : Bool
  auction_end_time : Option Int
  minimum_bid : ℚ
  status : ArtStatus
deriving DecidableEq, Repr

/-- Wallet fields of the UserProfile model (models.py): `wallet_balance` and
`total_sales`; profiles absent from the database behave as freshly created
ones with both fields 0.00, matching `UserProfile.objects.get_or_create`. -/
structure Profile where
  wallet_balance : ℚ
  total_sales : ℚ
deriving DecidableEq, Repr

/-- Bid model fields (models.py): bidder, amount and the `is_winning` flag.
`created_at` is omitted: the source orders bids by `-amount`, never by time. -/
structure Bid where
  bidder : Nat
  amount : ℚ
  is_winning : Bool
deriving DecidableEq, Repr

/-- Transaction types used by the settlement code (models.py lists more;
only `purchase` is ever written by views.py). -/
inductive TxType
  | purchase
  | bid_won
deriving DecidableEq, Repr

/-- Transaction status values (models.py). -/
inductive TxStatus
  | pending
  | completed
  | failed
deriving DecidableEq, Repr

/-- Transaction ledger record as written by `purchase_artwork` (views.py). -/
structure Transaction where
  transaction_type : TxType
  buyer : Nat
  seller : Nat
  amount : ℚ
  platform_fee : ℚ
  status : TxStatus
  completed_at : Int
deriving DecidableEq, Repr

/-- Notification types (models.py); the settlement code emits `sale`,
`bid` and `outbid`. -/
inductive NotifType
  | like
  | comment
  | follow
  | sale
  | bid
  | outbid
  | auction_won
deriving DecidableEq, Repr

/-- Notification record: recipient and type (message strings omitted). -/
structure Notification where
  user : Nat
  notification_type : NotifType
deriving DecidableEq, Repr

/-- Database state around one artwork: the artwork row (none when the id does
not resolve), its bids, every user profile, and the append-only transaction
and notification tables. -/
structure MarketState where
  artwork? : Option Artwork
  bids : List Bid
  profiles : Nat → Profile
  transactions : List Transaction
  notifications : List Notification

/-- Highest-amount bid: `artwork.bids.first()` under the Bid model's
`ordering = ['-amount']` (models.py). -/
def highestBid : List Bid → Option Bid
  | [] => none
  | b :: bs =>
    match highestBid bs with
    | none => some b
    | some h => if h.amount > b.amount then some h else some b

/-- Error outcomes of `place_bid`: the 404 branch, the three
`BidSerializer.validate` rejections, and the auction-ended rejection. -/
inductive BidError
  | artworkNotFound
  | notAuction
  | belowMinimum
  | notAboveHighest
  | auctionClosed
deriving DecidableEq, Repr

/-- BidSerializer.validate (serializers.py lines 215-229): reject when the
artwork is not an auction, when the amount is below `minimum_bid`, and when a
highest bid exists and the amount does not strictly exceed it. -/
def bidValidate (a : Artwork) (bids : List Bid) (amount : ℚ) : Option BidError :=
  if !a.is_auction then some .notAuction
  else if amount < a.minimum_bid then some .belowMinimum
  else
    match highestBid bids with
    | some h => if amount ≤ h.amount then some .notAboveHighest else none
    | none => none

/-- Clearing step of `place_bid` (views.py line 531):
`Bid.objects.filter(artwork=artwork, is_winning=True).update(is_winning=False)`. -/
def clearWinning (bids : List Bid) : List Bid :=
  bids.map fun b => if b.is_winning then { b with is_winning := false } else b

/-- Mutation phase of `place_bid` (views.py lines 530-563): clear the previous
winning flags, insert the new winning bid, notify the artwork owner, and, when
a highest bid by another bidder exists and its bidder is not the owner, notify
that bidder of being outbid. -/
def placeBidCommit (s : MarketState) (a : Artwork) (bidder : Nat) (amount : ℚ) :
    MarketState × Except BidError Bid :=
  let newBid : Bid := { bidder := bidder, amount := amount, is_winning := true }
  let bids' := newBid :: clearWinning s.bids
  let ownerNotif : Notification := { user := a.owner, notification_type := .bid }
  let outbidNotifs : List Notification :=
    match highestBid (bids'.filter fun b => b.bidder ≠ bidder) with
    | some pb =>
        if pb.bidder ≠ a.owner then
          [{ user := pb.bidder, notification_type := .outbid }]
        else []
    | none => []
  ({ s with
      bids := bids'
      notifications := s.notifications ++ [ownerNotif] ++ outbidNotifs },
   .ok newBid)

/-- The `place_bid` view (views.py lines 511-563): 404 when the artwork does
not exist, then serializer validation, then the auction-end-time check
(`if artwork.auction_end_time and artwork.auction_end_time < timezone.now()`),
then the mutation phase. Note the end-time check runs after the serializer's
amount checks. -/
def placeBid (s : MarketState) (bidder : Nat) (amount : ℚ) (now : Int) :
    MarketState × Except BidError Bid :=
  match s.artwork? with
  | none => (s, .error .artworkNotFound)
  | some a =>
    match bidValidate a s.bids amount with
    | some e => (s, .error e)
    | none =>
      match a.auction_end_time with
      | some t =>
          if t < now then (s, .error .auctionClosed)
          else placeBidCommit s a bidder amount
      | none => placeBidCommit s a bidder amount

/-- Error outcomes of `purchase_artwork` (views.py lines 443-462). -/
inductive PurchaseError
  | artworkNotFound
  | notForSale
  | selfTrade
  | insufficientFunds
deriving DecidableEq, Repr

/-- In-memory objects a `purchase_artwork` request holds after its read-and-
validate phase: the fetched artwork row and the two fetched profiles. The
write phase saves these objects back, so their values are the ones read. -/
structure PSnap where
  art : Artwork
  buyerProf : Profile
  sellerProf : Profile
deriving DecidableEq, Repr

/-- Read-and-validate phase of `purchase_artwork` (views.py lines 447-462):
artwork lookup, `is_for_sale` check, self-trade check, profile fetches, and
the balance check. No write happens in this phase. Note the source checks
only `is_for_sale`; it never examines `status`. -/
def purchaseCheck (s : MarketState) (buyer : Nat) : Except PurchaseError PSnap :=
  match s.artwork? with
  | none => .error .artworkNotFound
  | some a =>
    if !a.is_for_sale then .error .notForSale
    else if a.owner = buyer then .error .selfTrade
    else
      let bp := s.profiles buyer
      let sp := s.profiles a.owner
      if bp.wallet_balance < a.price then .error .insufficientFunds
      else .ok { art := a, buyerProf := bp, sellerProf := sp }

/-- Write phase of `purchase_artwork` (views.py lines 464-502): fee and seller
amount computed from the fetched price, both profile objects saved back with
their updated in-memory values, the artwork row rewritten with the new owner
and `sold` status, a completed transaction appended, and a sale notification
appended for the previous owner. Saving writes the values held in the snapshot
objects, so a stale snapshot overwrites any concurrent update. -/
def purchaseApply (s : MarketState) (buyer : Nat) (now : Int) (snap : PSnap) :
    MarketState :=
  let a := snap.art
  let platform_fee := a.price * (5 / 100 : ℚ)
  let seller_amount := a.price - platform_fee
  let profiles' : Nat → Profile := fun u =>
    if u = a.owner then
      { snap.sellerProf with
          wallet_balance := snap.sellerProf.wallet_balance + seller_amount
          total_sales := snap.sellerProf.total_sales + a.price }
    else if u = buyer then
      { snap.buyerProf with
          wallet_balance := snap.buyerProf.wallet_balance - a.price }
    else s.profiles u
  let a' : Artwork := { a with owner := buyer, is_for_sale := false, status := .sold }
  let tx : Transaction :=
    { transaction_type := .purchase, buyer := buyer, seller := a.owner
      amount := a.price, platform_fee := platform_fee
      status := .completed, completed_at := now }
  let saleNotif : Notification := { user := a.owner, notification_type := .sale }
  { s with
      artwork? := some a'
      profiles := profiles'
      transactions := s.transactions ++ [tx]
      notifications := s.notifications ++ [saleNotif] }

/-- The `purchase_artwork` view (views.py lines 443-508): the read-and-
validate phase followed, when every check passes, by the write phase. -/
def purchase (s : MarketState) (buyer : Nat) (now : Int) :
    MarketState × Except PurchaseError Unit :=
  match purchaseCheck s buyer with
  | .error e => (s, .error e)
  | .ok snap => (purchaseApply s buyer now snap, .ok ())

/-- ArtworkCreateSerializer.create (serializers.py lines 135-165): the artwork
row is built directly from the submitted fields; the serializer performs no
cross-field validation of `is_for_sale`, `is_auction` or `status`. -/
def artworkCreate (owner : Nat) (price : ℚ) (forSale auction : Bool)
    (endTime : Option Int) (minBid : ℚ) (st : ArtStatus) : Artwork :=
  { owner := owner, price := price, is_for_sale := forSale, is_auction := auction
    auction_end_time := endTime, minimum_bid := minBid, status := st }

/-- Sum of the wallet balances of a finite set of users. -/
def sumBalances (s : MarketState) (users : Finset Nat) : ℚ :=
  ∑ u ∈ users, (s.profiles u).wallet_balance

/-- One `place_bid` request: bidder, amount, and call time. -/
structure BidRequest where
  bidder : Nat
  amount : ℚ
  time : Int

/-- State reached after one `place_bid` request (the response is dropped). -/
def bidStep (s : MarketState) (r : BidRequest) : MarketState :=
  (placeBid s r.bidder r.amount r.time).1

/-- State reached after a sequence of `place_bid` requests. -/
def runBids (s : MarketState) (rs : List BidRequest) : MarketState :=
  rs.foldl bidStep s

/-- Bids currently flagged as winning. -/
def winningBids (bids : List Bid) : List Bid :=
  bids.filter fun b => b.is_winning

/-- Amount of the bid currently flagged as winning, when one exists. -/
def winningAmount (bids : List Bid) : Option ℚ :=
  (bids.find? fun b => b.is_winning).map Bid.amount

/-- Single-winner property of a bid book: at most one bid is flagged winning,
and a winning bid's amount bounds every bid's amount. -/
def singleWinner (bids : List Bid) : Prop :=
  (winningBids bids).length ≤ 1 ∧
    ∀ w ∈ bids, w.is_winning = true → ∀ b ∈ bids, b.amount ≤ w.amount

/-- Order on optional winning amounts: `none` precedes everything, and a
present amount must stay present and not decrease. -/
def optLe (x y : Option ℚ) : Prop :=
  ∀ q, x = some q → ∃ r, y = some r ∧ q ≤ r

/-- Listing-mode exclusivity predicate of the specification: the two listing
flags are never both set, and a sold artwork is not for sale. -/
def listingExclusive (a : Artwork) : Prop :=
  ¬(a.is_for_sale = true ∧ a.is_auction = true) ∧
    (a.status = ArtStatus.sold → a.is_for_sale = false)

instance (a : Artwork) : Decidable (listingExclusive a) := by
  unfold listingExclusive
  infer_instance

/-- Interleaving of two `purchase_artwork` requests in which both complete
their read-and-validate phase against the same database state before either
performs its writes; the writes then run in order. Django wraps neither view
in a transaction nor a lock, so this schedule is admissible. -/
def purchaseRace (s : MarketState) (b1 b2 : Nat) (now : Int) :
    MarketState × Except PurchaseError Unit × Except PurchaseError Unit :=
  match purchaseCheck s b1, purchaseCheck s b2 with
  | .ok sn1, .ok sn2 =>
      (purchaseApply (purchaseApply s b1 now sn1) b2 now sn2, .ok (), .ok ())
  | .ok sn1, .error e2 => (purchaseApply s b1 now sn1, .ok (), .error e2)
  | .error e1, .ok sn2 => (purchaseApply s b2 now sn2, .error e1, .ok ())
  | .error e1, .error e2 => (s, .error e1, .error e2)

/-! ### Concrete example states (used to instantiate the theorems) -/

/-- Profile table with user 1 holding 150.00 and user 2 holding 120.00. -/
def demoProfiles : Nat → Profile := fun u =>
  if u = 1 then { wallet_balance := 150, total_sales := 0 }
  else if u = 2 then { wallet_balance := 120, total_sales := 0 }
  else { wallet_balance := 0, total_sales := 0 }

/-- Fixed-price listing owned by user 0, priced 100.00. -/
def saleArt : Artwork :=
  { owner := 0, price := 100, is_for_sale := true, is_auction := false
    auction_end_time := none, minimum_bid := 0, status := .published }

/-- State holding the fixed-price listing and no bids. -/
def saleState : MarketState :=
  { artwork? := some saleArt, bids := [], profiles := demoProfiles
    transactions := [], notifications := [] }

/-- The same listing with its status already `sold` while the `is_for_sale`
flag is still set (creatable through the update serializer). -/
def soldListedArt : Artwork := { saleArt with status := .sold }

/-- State holding the sold-but-still-listed artwork. -/
def soldListedState : MarketState := { saleState with artwork? := some soldListedArt }

/-- The same listing with the `is_for_sale` flag cleared. -/
def notForSaleArt : Artwork := { saleArt with is_for_sale := false }

/-- State holding the unlisted artwork. -/
def notForSaleState : MarketState := { saleState with artwork? := some notForSaleArt }

/-- Auction owned by user 0, minimum bid 10.00, ending at time 100. -/
def auctionArt : Artwork :=
  { owner := 0, price := 0, is_for_sale := false, is_auction := true
    auction_end_time := some 100, minimum_bid := 10, status := .published }

/-- State holding the auction and no bids. -/
def auctionState : MarketState :=
  { artwork? := some auctionArt, bids := [], profiles := demoProfiles
    transactions := [], notifications := [] }

/-- The auction after user 1 placed a winning 10.00 bid. -/
def oneBidState : MarketState :=
  { auctionState with bids := [{ bidder := 1, amount := 10, is_winning := true }] }

/-- The auction with its end time at 5, i.e. already over at time 10. -/
def closedAuctionArt : Artwork := { auctionArt with auction_end_time := some 5 }

/-- State holding the closed auction. -/
def closedAuctionState : MarketState :=
  { auctionState with artwork? := some closedAuctionArt }

/-- Bid sequence of the specification scenario: 10.00 accepted, a second
10.00 rejected as a tie, then 15.00 accepted. -/
def demoBidSeq : List BidRequest := [⟨1, 10, 0⟩, ⟨2, 10, 0⟩, ⟨2, 15, 0⟩]

/-! ### Helper lemmas about the bid book -/

/-- The highest bid of an empty book does not exist, and conversely. -/
theorem highestBid_eq_none {bids : List Bid} (h : highestBid bids = none) :
    bids = [] := by
  cases bids with
  | nil => rfl
  | cons x xs =>
    simp only [highestBid] at h
    cases hx : highestBid xs with
    | none => rw [hx] at h; exact absurd h (by simp)
    | some h' =>
      rw [hx] at h
      by_cases hgt : h'.amount > x.amount <;> simp [hgt] at h

/-- The highest bid belongs to the book. -/
theorem highestBid_mem : ∀ {bids : List Bid} {h : Bid},
    highestBid bids = some h → h ∈ bids := by
  intro bids
  induction bids with
  | nil => intro h hh; exact absurd hh (by simp [highestBid])
  | cons x xs ih =>
    intro h hh
    simp only [highestBid] at hh
    cases hx : highestBid xs with
    | none =>
      rw [hx] at hh
      cases hh
      exact List.mem_cons_self _ _
    | some h' =>
      rw [hx] at hh
      by_cases hgt : h'.amount > x.amount
      · simp only [hgt, if_true] at hh
        cases hh
        exact List.mem_cons_of_mem _ (ih hx)
      · simp only [hgt, if_false] at hh
        cases hh
        exact List.mem_cons_self _ _

/-- The highest bid's amount bounds every amount in the book. -/
theorem highestBid_le : ∀ {bids : List Bid} {h : Bid},
    highestBid bids = some h → ∀ b ∈ bids, b.amount ≤ h.amount := by
  intro bids
  induction bids with
  | nil => intro h hh b hb; exact absurd hb (by simp)
  | cons x xs ih =>
    intro h hh b hb
    simp only [highestBid] at hh
    cases hx : highestBid xs with
    | none =>
      rw [hx] at hh
      cases hh
      rcases List.mem_cons.mp hb with rfl | hb'
      · exact le_refl _
      · rw [highestBid_eq_none hx] at hb'
        exact absurd hb' (by simp)
    | some h' =>
      rw [hx] at hh
      by_cases hgt : h'.amount > x.amount
      · simp only [hgt, if_true] at hh
        cases hh
        rcases List.mem_cons.mp hb with rfl | hb'
        · exact le_of_lt hgt
        · exact ih hx b hb'
      · simp only [hgt, if_false] at hh
        cases hh
        rcases List.mem_cons.mp hb with rfl | hb'
        · exact le_refl _
        · exact le_trans (ih hx b hb') (le_of_not_lt hgt)

/-- When the serializer validation passes, the submitted amount strictly
exceeds every amount already in the book. -/
theorem bidValidate_none_lt {a : Artwork} {bids : List Bid} {amount : ℚ}
    (h : bidValidate a bids amount = none) :
    ∀ b ∈ bids, b.amount < amount := by
  intro b hb
  unfold bidValidate at h
  by_cases hauc : a.is_auction
  · simp only [hauc, Bool.not_true] at h
    by_cases hmin : amount < a.minimum_bid
    · simp [hmin] at h
    · simp only [hmin, if_false] at h
      cases hx : highestBid bids with
      | none => rw [highestBid_eq_none hx] at hb; exact absurd hb (by simp)
      | some hi =>
        rw [hx] at h
        by_cases hle : amount ≤ hi.amount
        · simp [hle] at h
        · exact lt_of_le_of_lt (highestBid_le hx b hb) (lt_of_not_le hle)
  · simp [hauc] at h

/-- Conversely, the serializer validation passes whenever the artwork is an
auction, the amount reaches the minimum, and it strictly exceeds every bid. -/
theorem bidValidate_none_of {a : Artwork} {bids : List Bid} {amount : ℚ}
    (hauc : a.is_auction = true) (hmin : ¬ amount < a.minimum_bid)
    (hgt : ∀ b ∈ bids, b.amount < amount) :
    bidValidate a bids amount = none := by
  unfold bidValidate
  simp only [hauc, Bool.not_true, hmin, if_false]
  cases hx : highestBid bids with
  | none => rfl
  | some hi =>
    have : hi.amount < amount := hgt hi (highestBid_mem hx)
    simp [not_le_of_lt this]

/-- Clearing leaves no winning flag set. -/
theorem clearWinning_not_winning {bids : List Bid} :
    ∀ b ∈ clearWinning bids, b.is_winning = false := by
  intro b hb
  rcases List.mem_map.mp hb with ⟨c, _, hc⟩
  by_cases hw : c.is_winning = true
  · rw [if_pos hw] at hc
    rw [← hc]
  · rw [if_neg hw] at hc
    rw [← hc]
    cases h' : c.is_winning
    · rfl
    · exact absurd h' hw

/-- Clearing preserves the multiset of amounts: every cleared bid keeps the
amount of a bid of the original book. -/
theorem clearWinning_amount {bids : List Bid} :
    ∀ b ∈ clearWinning bids, ∃ c ∈ bids, b.amount = c.amount := by
  intro b hb
  rcases List.mem_map.mp hb with ⟨c, hc, hbc⟩
  refine ⟨c, hc, ?_⟩
  by_cases hw : c.is_winning = true
  · rw [if_pos hw] at hbc
    rw [← hbc]
  · rw [if_neg hw] at hbc
    rw [← hbc]

/-- Bid book written by the mutation phase. -/
theorem placeBidCommit_bids (s : MarketState) (a : Artwork) (bidder : Nat) (amount : ℚ) :
    (placeBidCommit s a bidder amount).1.bids =
      { bidder := bidder, amount := amount, is_winning := true } :: clearWinning s.bids := rfl

/-- Response of the mutation phase. -/
theorem placeBidCommit_ok (s : MarketState) (a : Artwork) (bidder : Nat) (amount : ℚ) :
    (placeBidCommit s a bidder amount).2 =
      Except.ok { bidder := bidder, amount := amount, is_winning := true } := rfl

/-- The mutation phase always notifies the artwork owner of the new bid. -/
theorem placeBidCommit_owner_notified (s : MarketState) (a : Artwork) (bidder : Nat)
    (amount : ℚ) :
    ({ user := a.owner, notification_type := .bid } : Notification) ∈
      (placeBidCommit s a bidder amount).1.notifications := by
  show _ ∈ s.notifications ++ [_] ++ _
  simp

/-- Every `place_bid` call either fails leaving the state unchanged, or runs
the mutation phase after the serializer validation passed. -/
theorem placeBid_cases (s : MarketState) (bidder : Nat) (amount : ℚ) (now : Int) :
    (∃ e, placeBid s bidder amount now = (s, Except.error e)) ∨
    (∃ a, s.artwork? = some a ∧ bidValidate a s.bids amount = none ∧
      placeBid s bidder amount now = placeBidCommit s a bidder amount) := by
  cases ha : s.artwork? with
  | none => exact Or.inl ⟨.artworkNotFound, by unfold placeBid; rw [ha]⟩
  | some a =>
    have hred : placeBid s bidder amount now =
        (match bidValidate a s.bids amount with
         | some e => (s, Except.error e)
         | none =>
           match a.auction_end_time with
           | some t =>
               if t < now then (s, Except.error .auctionClosed)
               else placeBidCommit s a bidder amount
           | none => placeBidCommit s a bidder amount) := by
      unfold placeBid
      rw [ha]
    cases hv : bidValidate a s.bids amount with
    | some e =>
      refine Or.inl ⟨e, ?_⟩
      rw [hred, hv]
    | none =>
      have hred2 : placeBid s bidder amount now =
          (match a.auction_end_time with
           | some t =>
               if t < now then (s, Except.error .auctionClosed)
               else placeBidCommit s a bidder amount
           | none => placeBidCommit s a bidder amount) := by
        rw [hred, hv]
      cases hE : a.auction_end_time with
      | none =>
        refine Or.inr ⟨a, rfl, hv, ?_⟩
        rw [hred2, hE]
      | some t =>
        have hred3 : placeBid s bidder amount now =
            (if t < now then (s, Except.error .auctionClosed)
             else placeBidCommit s a bidder amount) := by
          rw [hred2, hE]
        by_cases ht : t < now
        · refine Or.inl ⟨.auctionClosed, ?_⟩
          rw [hred3, if_pos ht]
        · refine Or.inr ⟨a, rfl, hv, ?_⟩
          rw [hred3, if_neg ht]

/-- When the artwork exists, the serializer validation passes, and the auction
end time has not elapsed, `place_bid` runs the mutation phase. -/
theorem placeBid_eq_commit {s : MarketState} {a : Artwork} {bidder : Nat} {amount : ℚ}
    {now : Int} (ha : s.artwork? = some a) (hv : bidValidate a s.bids amount = none)
    (hend : ∀ t, a.auction_end_time = some t → ¬ t < now) :
    placeBid s bidder amount now = placeBidCommit s a bidder amount := by
  unfold placeBid
  rw [ha]
  show (match bidValidate a s.bids amount with
        | some e => (s, Except.error e)
        | none => match a.auction_end_time with
          | some t => if t < now then (s, Except.error .auctionClosed)
                      else placeBidCommit s a bidder amount
          | none => placeBidCommit s a bidder amount) = _
  rw [hv]
  cases hE : a.auction_end_time with
  | none => rfl
  | some t =>
    show (if t < now then _ else _) = _
    rw [if_neg (hend t hE)]

/-- When the amount is below the minimum or fails to strictly exceed a winning
bid, the serializer rejects with one of its two too-low messages. -/
theorem bidValidate_reject {a : Artwork} {bids : List Bid} {amount : ℚ}
    (hauc : a.is_auction = true)
    (h : amount < a.minimum_bid ∨ ∃ w ∈ bids, w.is_winning = true ∧ amount ≤ w.amount) :
    bidValidate a bids amount = some .belowMinimum ∨
      bidValidate a bids amount = some .notAboveHighest := by
  unfold bidValidate
  by_cases hmin : amount < a.minimum_bid
  · left
    simp [hauc, hmin]
  · right
    rcases h with h | ⟨w, hw, _, hle⟩
    · exact absurd h hmin
    · cases hx : highestBid bids with
      | none =>
        rw [highestBid_eq_none hx] at hw
        exact absurd hw (by simp)
      | some hi =>
        have hah : amount ≤ hi.amount := le_trans hle (highestBid_le hx w hw)
        simp [hauc, hmin, hx, hah]

/-- The book written by the mutation phase satisfies the single-winner
property whenever the new amount strictly exceeds every existing amount. -/
theorem singleWinner_commit {s : MarketState} {a : Artwork} {bidder : Nat} {amount : ℚ}
    (hgt : ∀ b ∈ s.bids, b.amount < amount) :
    singleWinner (placeBidCommit s a bidder amount).1.bids := by
  rw [placeBidCommit_bids]
  constructor
  · unfold winningBids
    rw [List.filter_cons_of_pos (by rfl)]
    have hnil : (clearWinning s.bids).filter (fun b => b.is_winning) = [] := by
      rw [List.filter_eq_nil_iff]
      intro b hb
      simp [clearWinning_not_winning b hb]
    rw [hnil]
    simp
  · intro w hw hww b hb
    rcases List.mem_cons.mp hw with rfl | hw'
    · rcases List.mem_cons.mp hb with rfl | hb'
      · exact le_refl _
      · rcases clearWinning_amount b hb' with ⟨c, hc, hbc⟩
        rw [hbc]
        exact le_of_lt (hgt c hc)
    · exact absurd hww (by simp [clearWinning_not_winning w hw'])

/-- The empty bid book satisfies the single-winner property. -/
theorem singleWinner_nil : singleWinner [] := by
  constructor
  · simp [winningBids]
  · intro w hw
    exact absurd hw (by simp)

/-- One `place_bid` request preserves the single-winner property. -/
theorem singleWinner_bidStep {s : MarketState} (h : singleWinner s.bids)
    (r : BidRequest) : singleWinner (bidStep s r).bids := by
  rcases placeBid_cases s r.bidder r.amount r.time with ⟨e, he⟩ | ⟨a, _, hv, hc⟩
  · unfold bidStep
    rw [he]
    exact h
  · unfold bidStep
    rw [hc]
    exact singleWinner_commit (bidValidate_none_lt hv)

/-- Any sequence of `place_bid` requests preserves the single-winner
property. -/
theorem singleWinner_runBids {s : MarketState} (h : singleWinner s.bids) :
    ∀ rs : List BidRequest, singleWinner (runBids s rs).bids := by
  intro rs
  induction rs generalizing s with
  | nil => exact h
  | cons r rs ih => exact ih (singleWinner_bidStep h r)

/-- One `place_bid` request never decreases the winning amount. -/
theorem winningAmount_bidStep (s : MarketState) (r : BidRequest) :
    optLe (winningAmount s.bids) (winningAmount (bidStep s r).bids) := by
  rcases placeBid_cases s r.bidder r.amount r.time with ⟨e, he⟩ | ⟨a, _, hv, hc⟩
  · unfold bidStep
    rw [he]
    exact fun q hq => ⟨q, hq, le_refl q⟩
  · unfold bidStep
    rw [hc]
    intro q hq
    refine ⟨r.amount, ?_, ?_⟩
    · rw [placeBidCommit_bids]
      unfold winningAmount
      rw [List.find?_cons_of_pos _ (by rfl)]
      rfl
    · unfold winningAmount at hq
      cases hf : s.bids.find? fun b => b.is_winning with
      | none => rw [hf] at hq; exact absurd hq (by simp)
      | some w =>
        rw [hf] at hq
        have hwq : w.amount = q := by simpa using hq
        rw [← hwq]
        exact le_of_lt (bidValidate_none_lt hv w (List.mem_of_find?_eq_some hf))

/-- Sequences of `place_bid` requests never decrease the winning amount. -/
theorem winningAmount_runBids (s : MarketState) (rs : List BidRequest) :
    optLe (winningAmount s.bids) (winningAmount (runBids s rs).bids) := by
  induction rs generalizing s with
  | nil => exact fun q hq => ⟨q, hq, le_refl q⟩
  | cons r rs ih =>
    intro q hq
    rcases winningAmount_bidStep s r q hq with ⟨m, hm, hqm⟩
    rcases ih (bidStep s r) m hm with ⟨k, hk, hmk⟩
    exact ⟨k, hk, le_trans hqm hmk⟩

/-- When the serializer rejects, `place_bid` returns the serializer error and
leaves the state unchanged. -/
theorem placeBid_validate_error {s : MarketState} {a : Artwork} {bidder : Nat}
    {amount : ℚ} {now : Int} {e : BidError} (ha : s.artwork? = some a)
    (hv : bidValidate a s.bids amount = some e) :
    placeBid s bidder amount now = (s, Except.error e) := by
  have hred : placeBid s bidder amount now =
      (match bidValidate a s.bids amount with
       | some e' => (s, Except.error e')
       | none =>
         match a.auction_end_time with
         | some t =>
             if t < now then (s, Except.error .auctionClosed)
             else placeBidCommit s a bidder amount
         | none => placeBidCommit s a bidder amount) := by
    unfold placeBid
    rw [ha]
  rw [hred, hv]

/-! ### Helper lemmas about purchases -/

/-- When every precondition of `purchase_artwork` holds, the read phase
returns the fetched artwork and the two fetched profiles. -/
theorem purchaseCheck_ok {s : MarketState} {a : Artwork} {buyer : Nat}
    (ha : s.artwork? = some a) (hsale : a.is_for_sale = true)
    (howner : a.owner ≠ buyer)
    (hbal : ¬ (s.profiles buyer).wallet_balance < a.price) :
    purchaseCheck s buyer =
      Except.ok { art := a, buyerProf := s.profiles buyer, sellerProf := s.profiles a.owner } := by
  unfold purchaseCheck
  rw [ha]
  show (if !a.is_for_sale then Except.error PurchaseError.notForSale
        else if a.owner = buyer then Except.error PurchaseError.selfTrade
        else if (s.profiles buyer).wallet_balance < a.price then
          Except.error PurchaseError.insufficientFunds
        else Except.ok ({ art := a, buyerProf := s.profiles buyer,
                          sellerProf := s.profiles a.owner } : PSnap)) =
      Except.ok ({ art := a, buyerProf := s.profiles buyer,
                   sellerProf := s.profiles a.owner } : PSnap)
  rw [hsale]
  rw [if_neg (by simp)]
  rw [if_neg howner, if_neg hbal]

/-- When the artwork is not flagged for sale, the read phase rejects; this is
the only listing-state check the source performs. -/
theorem purchaseCheck_not_for_sale {s : MarketState} {a : Artwork} {buyer : Nat}
    (ha : s.artwork? = some a) (hfs : a.is_for_sale = false) :
    purchaseCheck s buyer = Except.error .notForSale := by
  unfold purchaseCheck
  rw [ha]
  show (if !a.is_for_sale then Except.error PurchaseError.notForSale
        else if a.owner = buyer then Except.error PurchaseError.selfTrade
        else if (s.profiles buyer).wallet_balance < a.price then
          Except.error PurchaseError.insufficientFunds
        else Except.ok ({ art := a, buyerProf := s.profiles buyer,
                          sellerProf := s.profiles a.owner } : PSnap)) =
      Except.error PurchaseError.notForSale
  rw [hfs]
  rw [if_pos (by simp)]

/-- When the artwork is not for sale, `purchase_artwork` fails with the
not-for-sale error and leaves the state unchanged. -/
theorem purchase_not_for_sale {s : MarketState} {a : Artwork} {buyer : Nat} {now : Int}
    (ha : s.artwork? = some a) (hfs : a.is_for_sale = false) :
    purchase s buyer now = (s, Except.error .notForSale) := by
  unfold purchase
  rw [purchaseCheck_not_for_sale ha hfs]

/-- When every precondition holds, `purchase_artwork` runs the write phase on
the fetched snapshot and reports success. -/
theorem purchase_ok {s : MarketState} {a : Artwork} {buyer : Nat} {now : Int}
    (ha : s.artwork? = some a) (hsale : a.is_for_sale = true)
    (howner : a.owner ≠ buyer)
    (hbal : ¬ (s.profiles buyer).wallet_balance < a.price) :
    purchase s buyer now =
      (purchaseApply s buyer now
        { art := a, buyerProf := s.profiles buyer, sellerProf := s.profiles a.owner },
       Except.ok ()) := by
  unfold purchase
  rw [purchaseCheck_ok ha hsale howner hbal]

/-- Every successful `purchase_artwork` call is the write phase applied to a
snapshot accepted by the read phase. -/
theorem purchase_ok_shape {s : MarketState} {buyer : Nat} {now : Int} {s' : MarketState}
    (h : purchase s buyer now = (s', Except.ok ())) :
    ∃ snap, purchaseCheck s buyer = Except.ok snap ∧
      s' = purchaseApply s buyer now snap := by
  unfold purchase at h
  cases hc : purchaseCheck s buyer with
  | error e =>
    rw [hc] at h
    exact absurd h (by simp)
  | ok snap =>
    rw [hc] at h
    have h1 : purchaseApply s buyer now snap = s' := congrArg Prod.fst h
    exact ⟨snap, rfl, h1.symm⟩

/-- Profile table written by the write phase. -/
theorem purchaseApply_profiles (s : MarketState) (buyer : Nat) (now : Int)
    (snap : PSnap) (u : Nat) :
    (purchaseApply s buyer now snap).profiles u =
      if u = snap.art.owner then
        { snap.sellerProf with
            wallet_balance := snap.sellerProf.wallet_balance
              + (snap.art.price - snap.art.price * (5 / 100 : ℚ))
            total_sales := snap.sellerProf.total_sales + snap.art.price }
      else if u = buyer then
        { snap.buyerProf with
            wallet_balance := snap.buyerProf.wallet_balance - snap.art.price }
      else s.profiles u := rfl

/-- Artwork row written by the write phase. -/
theorem purchaseApply_artwork (s : MarketState) (buyer : Nat) (now : Int) (snap : PSnap) :
    (purchaseApply s buyer now snap).artwork? =
      some { snap.art with owner := buyer, is_for_sale := false, status := .sold } := rfl

/-! ### Claim theorems -/

/-- C1: in every state reachable by any sequence of PlaceBid calls on an
artwork (starting from an empty bid book), at most one bid for that artwork
has `is_winning = true`, and that bid's amount is the maximum amount among all
bids recorded for the artwork. -/
theorem single_winner_invariant (s : MarketState) (rs : List BidRequest)
    (h : s.bids = []) : singleWinner (runBids s rs).bids := by
  apply singleWinner_runBids
  rw [h]
  exact singleWinner_nil

/-- Witness for C1: the specification's bid scenario run from the empty book
satisfies the single-winner property. -/
theorem single_winner_invariant_witness :
    auctionState.bids = [] ∧ singleWinner (runBids auctionState demoBidSeq).bids :=
  ⟨rfl, single_winner_invariant auctionState demoBidSeq rfl⟩

/-- C7: PlaceBid rejects with a bid-too-low serializer error any bid whose
amount is below `minimum_bid` or at most the current winning bid's amount
(ties rejected); a first bid equal to `minimum_bid` on an open auction is
accepted; and the winning amount is non-decreasing over any sequence of
PlaceBid calls. -/
theorem strict_monotonic_bidding :
    (∀ (s : MarketState) (a : Artwork) (bidder : Nat) (amount : ℚ) (now : Int),
      s.artwork? = some a → a.is_auction = true →
      (amount < a.minimum_bid ∨ ∃ w ∈ s.bids, w.is_winning = true ∧ amount ≤ w.amount) →
      ∃ e, placeBid s bidder amount now = (s, Except.error e) ∧
        (e = BidError.belowMinimum ∨ e = BidError.notAboveHighest)) ∧
    (∀ (s : MarketState) (a : Artwork) (bidder : Nat) (now : Int),
      s.artwork? = some a → a.is_auction = true → s.bids = [] →
      (∀ t, a.auction_end_time = some t → ¬ t < now) →
      ∃ s', placeBid s bidder a.minimum_bid now =
        (s', Except.ok { bidder := bidder, amount := a.minimum_bid, is_winning := true })) ∧
    (∀ (s : MarketState) (rs : List BidRequest),
      optLe (winningAmount s.bids) (winningAmount (runBids s rs).bids)) := by
  refine ⟨?_, ?_, winningAmount_runBids⟩
  · intro s a bidder amount now ha hauc h
    rcases bidValidate_reject hauc h with hv | hv
    · exact ⟨.belowMinimum, placeBid_validate_error ha hv, Or.inl rfl⟩
    · exact ⟨.notAboveHighest, placeBid_validate_error ha hv, Or.inr rfl⟩
  · intro s a bidder now ha hauc hbids hend
    have hv : bidValidate a s.bids a.minimum_bid = none := by
      refine bidValidate_none_of hauc (lt_irrefl _) ?_
      rw [hbids]
      intro b hb
      exact absurd hb (List.not_mem_nil b)
    refine ⟨(placeBidCommit s a bidder a.minimum_bid).1, ?_⟩
    rw [placeBid_eq_commit ha hv hend]
    rfl

/-- Witness for C7: a tie bid of 10.00 against a winning 10.00 bid is
rejected; the first 10.00 bid at the minimum is accepted; and the scenario
sequence does not decrease the winning amount. -/
theorem strict_monotonic_bidding_witness :
    (oneBidState.artwork? = some auctionArt ∧ auctionArt.is_auction = true ∧
      (∃ e, placeBid oneBidState 2 10 0 = (oneBidState, Except.error e) ∧
        (e = BidError.belowMinimum ∨ e = BidError.notAboveHighest))) ∧
    (∃ s', placeBid auctionState 1 auctionArt.minimum_bid 0 =
      (s', Except.ok { bidder := 1, amount := auctionArt.minimum_bid, is_winning := true })) ∧
    optLe (winningAmount auctionState.bids)
      (winningAmount (runBids auctionState demoBidSeq).bids) :=
  ⟨⟨rfl, rfl,
    strict_monotonic_bidding.1 oneBidState auctionArt 2 10 0 rfl rfl
      (Or.inr ⟨{ bidder := 1, amount := 10, is_winning := true }, by decide, rfl, by decide⟩)⟩,
   strict_monotonic_bidding.2.1 auctionState auctionArt 1 0 rfl rfl rfl
     (by intro t ht; simp [auctionArt] at ht; omega),
   strict_monotonic_bidding.2.2 auctionState demoBidSeq⟩

/-- C8 (amended): a PlaceBid call on an artwork whose auction end time is set
and earlier than the call time always fails with the state unchanged (no bid
inserted, no winning flag changed); the error is the auction-closed error
whenever the serializer validation passes, but the serializer's amount checks
run before the end-time check, so a bid that also fails them receives the
serializer error instead. -/
theorem auction_closed_rejection_amended (s : MarketState) (a : Artwork)
    (bidder : Nat) (amount : ℚ) (now t : Int) (ha : s.artwork? = some a)
    (hE : a.auction_end_time = some t) (ht : t < now) :
    (∃ e, placeBid s bidder amount now = (s, Except.error e)) ∧
    (bidValidate a s.bids amount = none →
      placeBid s bidder amount now = (s, Except.error BidError.auctionClosed)) := by
  have hclosed : bidValidate a s.bids amount = none →
      placeBid s bidder amount now = (s, Except.error BidError.auctionClosed) := by
    intro hv
    have hred : placeBid s bidder amount now =
        (match bidValidate a s.bids amount with
         | some e' => (s, Except.error e')
         | none =>
           match a.auction_end_time with
           | some t' =>
               if t' < now then (s, Except.error .auctionClosed)
               else placeBidCommit s a bidder amount
           | none => placeBidCommit s a bidder amount) := by
      unfold placeBid
      rw [ha]
    rw [hred, hv]
    show (match a.auction_end_time with
          | some t' =>
              if t' < now then (s, Except.error BidError.auctionClosed)
              else placeBidCommit s a bidder amount
          | none => placeBidCommit s a bidder amount)
        = (s, Except.error BidError.auctionClosed)
    rw [hE]
    show (if t < now then (s, Except.error BidError.auctionClosed)
          else placeBidCommit s a bidder amount)
        = (s, Except.error BidError.auctionClosed)
    rw [if_pos ht]
  refine ⟨?_, hclosed⟩
  cases hv : bidValidate a s.bids amount with
  | some e => exact ⟨e, placeBid_validate_error ha hv⟩
  | none => exact ⟨.auctionClosed, hclosed hv⟩

/-- Witness for C8 (amended): on the closed auction a 20.00 bid (which passes
the serializer checks) fails leaving the state unchanged, with the
auction-closed error. -/
theorem auction_closed_rejection_amended_witness :
    closedAuctionState.artwork? = some closedAuctionArt ∧
    closedAuctionArt.auction_end_time = some 5 ∧ (5 : Int) < 10 ∧
    (∃ e, placeBid closedAuctionState 1 20 10 = (closedAuctionState, Except.error e)) ∧
    (bidValidate closedAuctionArt closedAuctionState.bids 20 = none →
      placeBid closedAuctionState 1 20 10 =
        (closedAuctionState, Except.error BidError.auctionClosed)) :=
  ⟨rfl, rfl, by decide,
   (auction_closed_rejection_amended closedAuctionState closedAuctionArt 1 20 10 5
      rfl rfl (by decide)).1,
   (auction_closed_rejection_amended closedAuctionState closedAuctionArt 1 20 10 5
      rfl rfl (by decide)).2⟩

/-- Counterexample for C8 as stated: on the closed auction (end time 5, call
time 10) a 3.00 bid — below the 10.00 minimum — is rejected with the
below-minimum serializer error, not with the auction-closed error: the amount
checks precede the end-time check. -/
theorem auction_closed_error_order :
    closedAuctionArt.auction_end_time = some 5 ∧ (5 : Int) < 10 ∧
    (placeBid closedAuctionState 1 3 10).2 = Except.error BidError.belowMinimum ∧
    (placeBid closedAuctionState 1 3 10).2 ≠ Except.error BidError.auctionClosed := by
  refine ⟨rfl, by decide, rfl, ?_⟩
  intro h
  rw [show (placeBid closedAuctionState 1 3 10).2 = Except.error BidError.belowMinimum
      from rfl] at h
  exact absurd h (by simp)

/-- C10: PlaceBid never rejects a bid because the bidder owns the artwork: an
owner bid meeting the amount and end-time conditions succeeds, becomes the
winning bid, and the new-bid notification is emitted to the owner about their
own bid — whereas Purchase rejects buying one's own artwork with the
self-trade error. -/
theorem owner_self_bid_allowed :
    (∀ (s : MarketState) (a : Artwork) (amount : ℚ) (now : Int),
      s.artwork? = some a → a.is_auction = true →
      ¬ amount < a.minimum_bid → (∀ b ∈ s.bids, b.amount < amount) →
      (∀ t, a.auction_end_time = some t → ¬ t < now) →
      ∃ s', placeBid s a.owner amount now =
          (s', Except.ok { bidder := a.owner, amount := amount, is_winning := true }) ∧
        s'.bids.head? = some { bidder := a.owner, amount := amount, is_winning := true } ∧
        ({ user := a.owner, notification_type := .bid } : Notification) ∈
          s'.notifications) ∧
    (∀ (s : MarketState) (a : Artwork) (now : Int),
      s.artwork? = some a → a.is_for_sale = true →
      purchase s a.owner now = (s, Except.error PurchaseError.selfTrade)) := by
  constructor
  · intro s a amount now ha hauc hmin hgt hend
    have hv : bidValidate a s.bids amount = none := bidValidate_none_of hauc hmin hgt
    have hc := @placeBid_eq_commit s a a.owner amount now ha hv hend
    refine ⟨(placeBidCommit s a a.owner amount).1, ?_, ?_, ?_⟩
    · rw [hc]
      rfl
    · rw [placeBidCommit_bids]
      rfl
    · exact placeBidCommit_owner_notified s a a.owner amount
  · intro s a now ha hsale
    have hc : purchaseCheck s a.owner = Except.error .selfTrade := by
      unfold purchaseCheck
      rw [ha]
      show (if !a.is_for_sale then Except.error PurchaseError.notForSale
            else if a.owner = a.owner then Except.error PurchaseError.selfTrade
            else if (s.profiles a.owner).wallet_balance < a.price then
              Except.error PurchaseError.insufficientFunds
            else Except.ok ({ art := a, buyerProf := s.profiles a.owner,
                              sellerProf := s.profiles a.owner } : PSnap))
          = Except.error PurchaseError.selfTrade
      rw [hsale]
      rw [if_neg (by simp), if_pos rfl]
    unfold purchase
    rw [hc]

/-- Witness for C10: user 0 successfully bids 10.00 on their own open auction
and is notified of their own bid, while buying their own fixed-price listing
fails with the self-trade error. -/
theorem owner_self_bid_allowed_witness :
    auctionState.artwork? = some auctionArt ∧ auctionArt.owner = 0 ∧
    (∃ s', placeBid auctionState auctionArt.owner 10 0 =
        (s', Except.ok { bidder := auctionArt.owner, amount := 10, is_winning := true }) ∧
      s'.bids.head? = some { bidder := auctionArt.owner, amount := 10, is_winning := true } ∧
      ({ user := auctionArt.owner, notification_type := .bid } : Notification) ∈
        s'.notifications) ∧
    purchase saleState saleArt.owner 0 = (saleState, Except.error PurchaseError.selfTrade) :=
  ⟨rfl, rfl,
   owner_self_bid_allowed.1 auctionState auctionArt 10 0 rfl rfl (by decide)
     (by intro b hb
         rw [show auctionState.bids = [] from rfl] at hb
         exact absurd hb (List.not_mem_nil b))
     (by intro t ht; simp [auctionArt] at ht; omega),
   owner_self_bid_allowed.2 saleState saleArt 0 rfl rfl⟩

/-- C3: every Purchase call that fails a precondition (artwork not found, not
for sale, self-trade, insufficient funds) leaves the entire state — wallet
balances, artwork fields, transaction and notification tables — unchanged. -/
theorem purchase_failure_atomic (s : MarketState) (buyer : Nat) (now : Int)
    (e : PurchaseError) (h : (purchase s buyer now).2 = Except.error e) :
    (purchase s buyer now).1 = s := by
  unfold purchase at h ⊢
  cases hc : purchaseCheck s buyer with
  | error e' => rfl
  | ok snap =>
    rw [hc] at h
    exact absurd h (by simp)

/-- Witness for C3: user 3 (balance 0.00) fails to buy the 100.00 listing
with the insufficient-funds error and the state is unchanged. -/
theorem purchase_failure_atomic_witness :
    (purchase saleState 3 0).2 = Except.error PurchaseError.insufficientFunds ∧
    (purchase saleState 3 0).1 = saleState :=
  ⟨rfl, purchase_failure_atomic saleState 3 0 PurchaseError.insufficientFunds rfl⟩

/-- C4: when every precondition holds, Purchase computes a 5% platform fee,
debits the buyer by the price, credits the seller with price minus fee, adds
the price to the seller's lifetime sales, transfers ownership, clears the
for-sale flag, marks the artwork sold, appends a completed transaction with
that amount and fee, and appends a sale notification to the previous owner. -/
theorem purchase_success_effects (s : MarketState) (a : Artwork) (buyer : Nat)
    (now : Int) (ha : s.artwork? = some a) (hsale : a.is_for_sale = true)
    (howner : a.owner ≠ buyer)
    (hbal : ¬ (s.profiles buyer).wallet_balance < a.price) :
    (purchase s buyer now).2 = Except.ok () ∧
    ((purchase s buyer now).1.profiles buyer).wallet_balance
        = (s.profiles buyer).wallet_balance - a.price ∧
    ((purchase s buyer now).1.profiles a.owner).wallet_balance
        = (s.profiles a.owner).wallet_balance + (a.price - a.price * (5 / 100 : ℚ)) ∧
    ((purchase s buyer now).1.profiles a.owner).total_sales
        = (s.profiles a.owner).total_sales + a.price ∧
    (purchase s buyer now).1.artwork?
        = some { a with owner := buyer, is_for_sale := false, status := ArtStatus.sold } ∧
    (purchase s buyer now).1.transactions
        = s.transactions ++
            [{ transaction_type := TxType.purchase, buyer := buyer, seller := a.owner
               amount := a.price, platform_fee := a.price * (5 / 100 : ℚ)
               status := TxStatus.completed, completed_at := now }] ∧
    (purchase s buyer now).1.notifications
        = s.notifications ++ [{ user := a.owner, notification_type := NotifType.sale }] := by
  rw [purchase_ok ha hsale howner hbal]
  refine ⟨rfl, ?_, ?_, ?_, rfl, rfl, rfl⟩
  · rw [purchaseApply_profiles]
    rw [if_neg (fun hh => howner hh.symm), if_pos rfl]
  · rw [purchaseApply_profiles]
    rw [if_pos rfl]
  · rw [purchaseApply_profiles]
    rw [if_pos rfl]

/-- Witness for C4: the specification scenario — buyer 1 with balance 150.00
buys the 100.00 listing; balance drops to 50.00, the seller receives 95.00,
the fee is 5.00, and the artwork becomes sold. -/
theorem purchase_success_effects_witness :
    saleState.artwork? = some saleArt ∧ saleArt.is_for_sale = true ∧
    saleArt.owner ≠ 1 ∧ ¬ (saleState.profiles 1).wallet_balance < saleArt.price ∧
    ((purchase saleState 1 0).2 = Except.ok () ∧
     ((purchase saleState 1 0).1.profiles 1).wallet_balance
        = (saleState.profiles 1).wallet_balance - saleArt.price ∧
     ((purchase saleState 1 0).1.profiles saleArt.owner).wallet_balance
        = (saleState.profiles saleArt.owner).wallet_balance
          + (saleArt.price - saleArt.price * (5 / 100 : ℚ)) ∧
     ((purchase saleState 1 0).1.profiles saleArt.owner).total_sales
        = (saleState.profiles saleArt.owner).total_sales + saleArt.price ∧
     (purchase saleState 1 0).1.artwork?
        = some { saleArt with owner := 1, is_for_sale := false, status := ArtStatus.sold } ∧
     (purchase saleState 1 0).1.transactions
        = saleState.transactions ++
            [{ transaction_type := TxType.purchase, buyer := 1, seller := saleArt.owner
               amount := saleArt.price, platform_fee := saleArt.price * (5 / 100 : ℚ)
               status := TxStatus.completed, completed_at := 0 }] ∧
     (purchase saleState 1 0).1.notifications
        = saleState.notifications
            ++ [{ user := saleArt.owner, notification_type := NotifType.sale }]) :=
  ⟨rfl, rfl, by decide, by decide,
   purchase_success_effects saleState saleArt 1 0 rfl rfl (by decide) (by decide)⟩

/-- C5 (amended): after any successful Purchase, the buyer's balance decrease
equals the seller's balance increase plus the platform fee; the sum of all
wallet balances decreases by exactly the platform fee (the fee is deducted
from the seller's proceeds and no platform wallet exists), so it is unchanged
only when the price is zero. -/
theorem balance_conservation_amended (s : MarketState) (a : Artwork) (buyer : Nat)
    (now : Int) (users : Finset Nat) (ha : s.artwork? = some a)
    (hsale : a.is_for_sale = true) (howner : a.owner ≠ buyer)
    (hbal : ¬ (s.profiles buyer).wallet_balance < a.price)
    (hbu : buyer ∈ users) (hou : a.owner ∈ users) :
    (s.profiles buyer).wallet_balance
        - ((purchase s buyer now).1.profiles buyer).wallet_balance
      = (((purchase s buyer now).1.profiles a.owner).wallet_balance
          - (s.profiles a.owner).wallet_balance) + a.price * (5 / 100 : ℚ) ∧
    sumBalances (purchase s buyer now).1 users
      = sumBalances s users - a.price * (5 / 100 : ℚ) := by
  rw [purchase_ok ha hsale howner hbal]
  constructor
  · rw [purchaseApply_profiles, purchaseApply_profiles]
    rw [if_neg (fun hh => howner hh.symm), if_pos rfl, if_pos rfl]
    ring
  · unfold sumBalances
    have hpt : ∀ u ∈ users,
        ((purchaseApply s buyer now
            { art := a, buyerProf := s.profiles buyer,
              sellerProf := s.profiles a.owner }).profiles u).wallet_balance
          = (s.profiles u).wallet_balance
            + ((if u = buyer then -(a.price) else 0)
               + (if u = a.owner then a.price - a.price * (5 / 100 : ℚ) else 0)) := by
      intro u _
      rw [purchaseApply_profiles]
      by_cases h1 : u = a.owner
      · rw [if_pos h1, if_pos h1, if_neg (fun h2 => howner (h1.symm.trans h2))]
        rw [h1]
        ring_nf
      · rw [if_neg h1, if_neg h1]
        by_cases h2 : u = buyer
        · rw [if_pos h2, if_pos h2, h2]
          ring_nf
        · rw [if_neg h2, if_neg h2]
          ring
    rw [Finset.sum_congr rfl hpt]
    rw [Finset.sum_add_distrib, Finset.sum_add_distrib]
    rw [Finset.sum_ite_eq' users buyer (fun _ => -(a.price))]
    rw [Finset.sum_ite_eq' users a.owner (fun _ => a.price - a.price * (5 / 100 : ℚ))]
    rw [if_pos hbu, if_pos hou]
    ring

/-- Witness for C5 (amended): the 100.00 purchase shifts 100.00 out of the
buyer and 95.00 into the seller; over the users {0, 1, 2} the balance sum
drops by exactly the 5.00 fee. -/
theorem balance_conservation_amended_witness :
    saleState.artwork? = some saleArt ∧ saleArt.is_for_sale = true ∧
    saleArt.owner ≠ 1 ∧ ¬ (saleState.profiles 1).wallet_balance < saleArt.price ∧
    (1 : Nat) ∈ ({0, 1, 2} : Finset Nat) ∧ saleArt.owner ∈ ({0, 1, 2} : Finset Nat) ∧
    ((saleState.profiles 1).wallet_balance
        - ((purchase saleState 1 0).1.profiles 1).wallet_balance
      = (((purchase saleState 1 0).1.profiles saleArt.owner).wallet_balance
          - (saleState.profiles saleArt.owner).wallet_balance)
        + saleArt.price * (5 / 100 : ℚ) ∧
     sumBalances (purchase saleState 1 0).1 ({0, 1, 2} : Finset Nat)
      = sumBalances saleState ({0, 1, 2} : Finset Nat)
        - saleArt.price * (5 / 100 : ℚ)) :=
  ⟨rfl, rfl, by decide, by decide, by decide, by decide,
   balance_conservation_amended saleState saleArt 1 0 ({0, 1, 2} : Finset Nat)
     rfl rfl (by decide) (by decide) (by decide) (by decide)⟩

/-- Counterexample for C5 as stated: after the successful 100.00 purchase the
sum of all wallet balances over {0, 1, 2} falls from 270.00 to 265.00 — it
changes by the 5.00 fee, not by zero. -/
theorem balance_sum_not_preserved :
    (purchase saleState 1 0).2 = Except.ok () ∧
    sumBalances saleState ({0, 1, 2} : Finset Nat) = 270 ∧
    sumBalances (purchase saleState 1 0).1 ({0, 1, 2} : Finset Nat) = 265 ∧
    sumBalances (purchase saleState 1 0).1 ({0, 1, 2} : Finset Nat) ≠
      sumBalances saleState ({0, 1, 2} : Finset Nat) := by
  have h1 : sumBalances saleState ({0, 1, 2} : Finset Nat) = 270 := by
    norm_num [sumBalances, Finset.sum_insert, Finset.mem_insert, Finset.mem_singleton,
      saleState, demoProfiles]
  have h2 : sumBalances (purchase saleState 1 0).1 ({0, 1, 2} : Finset Nat) = 265 := by
    norm_num [sumBalances, Finset.sum_insert, Finset.mem_insert, Finset.mem_singleton,
      purchase, purchaseCheck, purchaseApply, saleState, saleArt, demoProfiles]
  refine ⟨rfl, h1, h2, ?_⟩
  rw [h1, h2]
  norm_num

/-- C6 (amended): Purchase fails with the not-for-sale error exactly when the
`is_for_sale` flag is cleared — the source never examines `status` — and since
a successful Purchase clears `is_for_sale` while setting `status = sold`,
re-running Purchase after a sale deterministically fails with the same
not-for-sale error every time, with no state change. -/
theorem purchase_idempotent_failure_amended :
    (∀ (s : MarketState) (a : Artwork) (buyer : Nat) (now : Int),
      s.artwork? = some a → a.is_for_sale = false →
      purchase s buyer now = (s, Except.error PurchaseError.notForSale)) ∧
    (∀ (s s' : MarketState) (buyer : Nat) (now : Int),
      purchase s buyer now = (s', Except.ok ()) →
      ∀ (buyer2 : Nat) (now2 : Int),
        purchase s' buyer2 now2 = (s', Except.error PurchaseError.notForSale)) := by
  refine ⟨fun s a buyer now ha hfs => purchase_not_for_sale ha hfs, ?_⟩
  intro s s' buyer now h buyer2 now2
  rcases purchase_ok_shape h with ⟨snap, _, hs'⟩
  have ha' : s'.artwork?
      = some { snap.art with owner := buyer, is_for_sale := false, status := .sold } := by
    rw [hs']
    exact purchaseApply_artwork s buyer now snap
  exact purchase_not_for_sale ha' rfl

/-- Witness for C6 (amended): buying the unlisted artwork fails with the
not-for-sale error and leaves the state unchanged; after user 1 buys the
100.00 listing, user 2's attempt fails with the same not-for-sale error and
leaves the post-sale state unchanged. -/
theorem purchase_idempotent_failure_amended_witness :
    notForSaleState.artwork? = some notForSaleArt ∧
    notForSaleArt.is_for_sale = false ∧
    purchase notForSaleState 1 0 = (notForSaleState, Except.error PurchaseError.notForSale) ∧
    purchase saleState 1 0 = ((purchase saleState 1 0).1, Except.ok ()) ∧
    purchase (purchase saleState 1 0).1 2 0
      = ((purchase saleState 1 0).1, Except.error PurchaseError.notForSale) :=
  ⟨rfl, rfl,
   purchase_idempotent_failure_amended.1 notForSaleState notForSaleArt 1 0 rfl rfl,
   rfl,
   purchase_idempotent_failure_amended.2 saleState (purchase saleState 1 0).1 1 0 rfl 2 0⟩

/-- Counterexample for C6 as stated: the artwork whose status is `sold` but
whose `is_for_sale` flag is still set is bought successfully — Purchase never
checks `status`, so the claimed precondition 1 does not exist in the code. -/
theorem sold_status_not_checked :
    soldListedState.artwork? = some soldListedArt ∧
    soldListedArt.status = ArtStatus.sold ∧
    soldListedArt.is_for_sale = true ∧
    (purchase soldListedState 1 0).2 = Except.ok () :=
  ⟨rfl, rfl, rfl, rfl⟩

/-- C9 (amended): a successful Purchase writes an artwork row that satisfies
listing-mode exclusivity (it clears `is_for_sale` while setting
`status = sold`); but artwork creation performs no cross-field validation, so
the invariant does not hold of every reachable state. -/
theorem purchase_preserves_listing_exclusive (s s' : MarketState) (buyer : Nat)
    (now : Int) (h : purchase s buyer now = (s', Except.ok ())) :
    ∃ a', s'.artwork? = some a' ∧ a'.is_for_sale = false ∧
      a'.status = ArtStatus.sold ∧ listingExclusive a' := by
  rcases purchase_ok_shape h with ⟨snap, _, hs'⟩
  refine ⟨{ snap.art with owner := buyer, is_for_sale := false, status := .sold },
    ?_, rfl, rfl, ?_, fun _ => rfl⟩
  · rw [hs']
    exact purchaseApply_artwork s buyer now snap
  · intro hcon
    exact absurd hcon.1 (by simp)

/-- Witness for C9 (amended): the artwork row written by the 100.00 purchase
satisfies listing-mode exclusivity. -/
theorem purchase_preserves_listing_exclusive_witness :
    purchase saleState 1 0 = ((purchase saleState 1 0).1, Except.ok ()) ∧
    ∃ a', (purchase saleState 1 0).1.artwork? = some a' ∧ a'.is_for_sale = false ∧
      a'.status = ArtStatus.sold ∧ listingExclusive a' :=
  ⟨rfl, purchase_preserves_listing_exclusive saleState (purchase saleState 1 0).1 1 0 rfl⟩

/-- Counterexample for C9 as stated: the creation serializer accepts an
artwork with both listing flags set, and one whose status is `sold` while
`is_for_sale` is still true — neither exclusivity clause is enforced. -/
theorem listing_exclusivity_not_enforced :
    ¬ listingExclusive (artworkCreate 0 100 true true none 0 ArtStatus.published) ∧
    ¬ listingExclusive (artworkCreate 0 100 true false none 0 ArtStatus.sold) := by
  constructor <;> decide

/-- C2 (at the failing schedule): when two Purchase requests for the same
100.00 listing both pass their read-and-validate phase before either writes —
a schedule nothing in the source excludes — both report success, both buyers
are debited, the seller is credited only once (the second write overwrites the
first), two completed transactions are recorded, and the final owner is the
second writer; the claimed exactly-one-succeeds behavior does not hold. -/
theorem concurrent_purchase_double_sale :
    (purchaseRace saleState 1 2 0).2.1 = Except.ok () ∧
    (purchaseRace saleState 1 2 0).2.2 = Except.ok () ∧
    (purchaseRace saleState 1 2 0).1.artwork?.map Artwork.owner = some 2 ∧
    ((purchaseRace saleState 1 2 0).1.profiles 1).wallet_balance = 50 ∧
    ((purchaseRace saleState 1 2 0).1.profiles 2).wallet_balance = 20 ∧
    ((purchaseRace saleState 1 2 0).1.profiles 0).wallet_balance = 95 ∧
    (purchaseRace saleState 1 2 0).1.transactions.length = 2 := by
  refine ⟨rfl, rfl, rfl, ?_, ?_, ?_, rfl⟩
  · norm_num [purchaseRace, purchaseCheck, purchaseApply, saleState, saleArt, demoProfiles]
  · norm_num [purchaseRace, purchaseCheck, purchaseApply, saleState, saleArt, demoProfiles]
  · norm_num [purchaseRace, purchaseCheck, purchaseApply, saleState, saleArt, demoProfiles]

end Gallery
